import Mathlib

/-!
Verification development for the songbattle rating/matchmaking core.

The Go source is shallowly embedded:
* Go `int`/`int64` become `Int` (overflow is immaterial at the rating
  magnitudes the claims are about; where the source manipulates the
  explicit max-int sentinel we keep it as the literal `9223372036854775807`).
* Go `float64` arithmetic (`math.Pow`, score arithmetic, `math.Round`)
  is modelled over `ℝ` with exact real arithmetic; `math.Round`
  (round half away from zero) is `mathRound` below.
* The SQLite store is modelled as a keyed map of Rating rows plus an
  append-only list of Duel rows.  Any individual write can fail in the
  real store (the Go code just propagates the driver error), so the
  model carries a per-row failure oracle `failUpdate` and a
  `failCreateDuel` flag; a failed write leaves the store untouched,
  a successful one commits immediately, exactly as a single
  non-transactional `Exec` does.
* Timestamps (`LastSeenAt`, `CreatedAt`) and the auto-increment duel id
  are omitted: no claim mentions them.
* The matchmaker's `rand.Intn(n)` draws are modelled by explicit `Nat`
  parameters taken modulo `n`, which ranges over exactly the outcomes
  `Intn` can produce; the coin `rand.Float64() < ExplorationRate` is an
  explicit `Bool` parameter.
-/

namespace SongBattle

/-- Rating row from internal/models/models.go (timestamp omitted). -/
structure Rating where
  trackID : Int
  elo : Int
  wins : Int
  losses : Int
  draws : Int
deriving DecidableEq

/-- GetTotalBattles from internal/models/models.go: wins + losses + draws. -/
def Rating.GetTotalBattles (r : Rating) : Int :=
  r.wins + r.losses + r.draws

/-- GetWinRate from internal/models/models.go; float64 division modelled in ℚ. -/
def Rating.GetWinRate (r : Rating) : ℚ :=
  if r.GetTotalBattles = 0 then 0
  else (r.wins : ℚ) / (r.GetTotalBattles : ℚ) * 100

/-- Duel row from internal/models/models.go (id and timestamp omitted);
winnerTrackID is NULL (none) for draw and skip. -/
structure Duel where
  leftTrackID : Int
  rightTrackID : Int
  winnerTrackID : Option Int
deriving DecidableEq

/-- Errors the store layer can surface: a missing row on read
(sql.ErrNoRows from GetRating) or an opaque write failure. -/
inductive StoreError where
  | notFound
  | storeFailure
deriving DecidableEq

/-- The store (internal/store, store.DB): ratings keyed by track id,
the append-only duels log, and the write-failure oracle described in
the header comment. -/
structure DB where
  ratings : Int → Option Rating
  duels : List Duel
  failUpdate : Int → Bool
  failCreateDuel : Bool

/-- GetRating from store: SELECT ... WHERE track_id = ?. -/
def GetRating (db : DB) (trackID : Int) : Option Rating :=
  db.ratings trackID

/-- The effect of a committed UPDATE ... WHERE track_id = ? on the
ratings map: the keyed row (if present) is replaced, everything else
is untouched; an absent row stays absent (UPDATE matches no row). -/
def setRating (f : Int → Option Rating) (rating : Rating) : Int → Option Rating :=
  fun id => if id = rating.trackID then (f id).map fun _ => rating else f id

/-- UpdateRating from store: UPDATE ratings SET ... WHERE track_id = ?.
The write either fails as a whole or commits as a whole. -/
def UpdateRating (db : DB) (rating : Rating) : Option StoreError × DB :=
  if db.failUpdate rating.trackID then (some .storeFailure, db)
  else (none, { db with ratings := setRating db.ratings rating })

/-- CreateDuel from store: INSERT INTO duels. -/
def CreateDuel (db : DB) (duel : Duel) : Option StoreError × DB :=
  if db.failCreateDuel then (some .storeFailure, db)
  else (none, { db with duels := db.duels ++ [duel] })

/-- CalculateExpectedScore from the elo package:
1 / (1 + 10^((eloB - eloA)/400)). -/
noncomputable def CalculateExpectedScore (eloA eloB : Int) : ℝ :=
  1 / (1 + (10 : ℝ) ^ ((((eloB - eloA) : Int) : ℝ) / 400))

/-- GetKFactor from the elo package: 32 below 10 battles, 24 below 30,
16 otherwise. -/
def GetKFactor (totalBattles : Int) : Int :=
  if totalBattles < 10 then 32
  else if totalBattles < 30 then 24
  else 16

/-- Go math.Round: round to the nearest integer, halves away from zero. -/
noncomputable def mathRound (x : ℝ) : Int :=
  if x < 0 then -⌊-x + 1 / 2⌋ else ⌊x + 1 / 2⌋

/-- CalculateNewElo from the elo package:
int(math.Round(oldElo + k * (actualScore - expectedScore))). -/
noncomputable def CalculateNewElo (oldElo : Int) (actualScore expectedScore : ℝ)
    (kFactor : Int) : Int :=
  mathRound ((oldElo : ℝ) + (kFactor : ℝ) * (actualScore - expectedScore))

/-- The (leftScore, rightScore) pairs of ProcessDuel's switch for the
three rating-changing outcomes; none for anything else. -/
noncomputable def duelScores (result : String) : Option (ℝ × ℝ) :=
  if result = "left" then some (1, 0)
  else if result = "right" then some (0, 1)
  else if result = "draw" then some (1 / 2, 1 / 2)
  else none

/-- recordDuelWithoutEloChange from the elo package. -/
def recordDuelWithoutEloChange (db : DB) (leftTrackID rightTrackID : Int)
    (winnerID : Option Int) : Option StoreError × DB :=
  CreateDuel db
    { leftTrackID := leftTrackID, rightTrackID := rightTrackID,
      winnerTrackID := winnerID }

/-- ProcessDuel from the elo package.  The returned DB reflects every
write committed before a failure (the Go code issues the two UPDATEs and
the INSERT sequentially, without a transaction). -/
noncomputable def ProcessDuel (db : DB) (leftTrackID rightTrackID : Int)
    (result : String) : Option StoreError × DB :=
  match GetRating db leftTrackID with
  | none => (some .notFound, db)
  | some leftRating =>
    match GetRating db rightTrackID with
    | none => (some .notFound, db)
    | some rightRating =>
      if result = "skip" then
        recordDuelWithoutEloChange db leftTrackID rightTrackID none
      else
        match duelScores result with
        | none => (none, db)
        | some (leftScore, rightScore) =>
          let leftExpected := CalculateExpectedScore leftRating.elo rightRating.elo
          let rightExpected := CalculateExpectedScore rightRating.elo leftRating.elo
          let leftK := GetKFactor leftRating.GetTotalBattles
          let rightK := GetKFactor rightRating.GetTotalBattles
          let newLeftElo := CalculateNewElo leftRating.elo leftScore leftExpected leftK
          let newRightElo := CalculateNewElo rightRating.elo rightScore rightExpected rightK
          let leftUpdated : Rating :=
            { leftRating with
              elo := newLeftElo
              wins := if result = "left" then leftRating.wins + 1 else leftRating.wins
              losses := if result = "right" then leftRating.losses + 1 else leftRating.losses
              draws := if result = "draw" then leftRating.draws + 1 else leftRating.draws }
          let rightUpdated : Rating :=
            { rightRating with
              elo := newRightElo
              wins := if result = "right" then rightRating.wins + 1 else rightRating.wins
              losses := if result = "left" then rightRating.losses + 1 else rightRating.losses
              draws := if result = "draw" then rightRating.draws + 1 else rightRating.draws }
          match UpdateRating db leftUpdated with
          | (some e, db1) => (some e, db1)
          | (none, db1) =>
            match UpdateRating db1 rightUpdated with
            | (some e, db2) => (some e, db2)
            | (none, db2) =>
              let winnerID : Option Int :=
                if result = "left" then some leftTrackID
                else if result = "right" then some rightTrackID
                else none
              recordDuelWithoutEloChange db2 leftTrackID rightTrackID winnerID

/-- EloChange from the elo package. -/
structure EloChange where
  trackID : Int
  oldElo : Int
  newElo : Int
  change : Int
  result : String
deriving DecidableEq

/-- SimulateDuel from the elo package: same arithmetic as ProcessDuel,
returns the projected changes and never touches the store (its result
type carries no DB). -/
noncomputable def SimulateDuel (db : DB) (leftTrackID rightTrackID : Int)
    (result : String) : Option StoreError × Option (List EloChange) :=
  match GetRating db leftTrackID with
  | none => (some .notFound, none)
  | some leftRating =>
    match GetRating db rightTrackID with
    | none => (some .notFound, none)
    | some rightRating =>
      if result = "skip" then
        (none, some
          [{ trackID := leftTrackID, oldElo := leftRating.elo,
             newElo := leftRating.elo, change := 0, result := result },
           { trackID := rightTrackID, oldElo := rightRating.elo,
             newElo := rightRating.elo, change := 0, result := result }])
      else
        match duelScores result with
        | none => (none, none)
        | some (leftScore, rightScore) =>
          let leftExpected := CalculateExpectedScore leftRating.elo rightRating.elo
          let rightExpected := CalculateExpectedScore rightRating.elo leftRating.elo
          let leftK := GetKFactor leftRating.GetTotalBattles
          let rightK := GetKFactor rightRating.GetTotalBattles
          let newLeftElo := CalculateNewElo leftRating.elo leftScore leftExpected leftK
          let newRightElo := CalculateNewElo rightRating.elo rightScore rightExpected rightK
          (none, some
            [{ trackID := leftTrackID, oldElo := leftRating.elo,
               newElo := newLeftElo, change := newLeftElo - leftRating.elo,
               result := result },
             { trackID := rightTrackID, oldElo := rightRating.elo,
               newElo := newRightElo, change := newRightElo - rightRating.elo,
               result := result }])

/-- ProcessDuel's winnerID local: the winning side's id, absent for a
draw (and for skip, which is recorded separately). -/
def processWinnerID (lid rid : Int) (result : String) : Option Int :=
  if result = "left" then some lid
  else if result = "right" then some rid
  else none

/-- ProcessDuel's local leftRating after mutation (the elo package
mutates the fetched left Rating in place before writing it back);
ls is the left actual score of the processed result. -/
noncomputable def leftUpdatedRating (lr rr : Rating) (result : String) (ls : ℝ) : Rating :=
  { lr with
    elo := CalculateNewElo lr.elo ls (CalculateExpectedScore lr.elo rr.elo)
      (GetKFactor lr.GetTotalBattles)
    wins := if result = "left" then lr.wins + 1 else lr.wins
    losses := if result = "right" then lr.losses + 1 else lr.losses
    draws := if result = "draw" then lr.draws + 1 else lr.draws }

/-- ProcessDuel's local rightRating after mutation; rs is the right
actual score of the processed result. -/
noncomputable def rightUpdatedRating (lr rr : Rating) (result : String) (rs : ℝ) : Rating :=
  { rr with
    elo := CalculateNewElo rr.elo rs (CalculateExpectedScore rr.elo lr.elo)
      (GetKFactor rr.GetTotalBattles)
    wins := if result = "right" then rr.wins + 1 else rr.wins
    losses := if result = "left" then rr.losses + 1 else rr.losses
    draws := if result = "draw" then rr.draws + 1 else rr.draws }

/-! ### Matchmaker (matchmaker package, in styles.go) -/

/-- TrackWithRating as the matchmaker uses it: the track id together
with its rating row (display metadata omitted). -/
structure TrackWithRating where
  id : Int
  rating : Rating
deriving DecidableEq

/-- Placeholder used for the (never out-of-range) modulo list lookups. -/
def dummyTrack : TrackWithRating :=
  { id := 0, rating := { trackID := 0, elo := 0, wins := 0, losses := 0, draws := 0 } }

/-- abs from styles.go. -/
def intAbs (x : Int) : Int :=
  if x < 0 then -x else x

/-- int(^uint(0) >> 1), the max-int sentinel findBestOpponent starts from. -/
def maxIntGo : Int := 9223372036854775807

/-- First loop of findBestOpponent: best candidate within the
acceptable Elo range (EloRange = 100). -/
def findBestLoop1 (target : TrackWithRating) :
    List TrackWithRating → Option TrackWithRating × Int → Option TrackWithRating × Int
  | [], acc => acc
  | candidate :: rest, (best, bd) =>
    if candidate.id = target.id then findBestLoop1 target rest (best, bd)
    else
      let eloDiff := intAbs (candidate.rating.elo - target.rating.elo)
      if eloDiff ≤ 100 ∧ eloDiff < bd then findBestLoop1 target rest (some candidate, eloDiff)
      else findBestLoop1 target rest (best, bd)

/-- Second loop of findBestOpponent: closest candidate regardless of range. -/
def findBestLoop2 (target : TrackWithRating) :
    List TrackWithRating → Option TrackWithRating × Int → Option TrackWithRating × Int
  | [], acc => acc
  | candidate :: rest, (best, bd) =>
    if candidate.id = target.id then findBestLoop2 target rest (best, bd)
    else
      let eloDiff := intAbs (candidate.rating.elo - target.rating.elo)
      if eloDiff < bd then findBestLoop2 target rest (some candidate, eloDiff)
      else findBestLoop2 target rest (best, bd)

/-- findBestOpponent from styles.go: the in-range loop first, then,
only if it found nothing, the unrestricted loop (which starts from the
bestDifference the first loop left behind). -/
def findBestOpponent (target : TrackWithRating)
    (candidates : List TrackWithRating) : Option TrackWithRating :=
  let s1 := findBestLoop1 target candidates (none, maxIntGo)
  match s1.1 with
  | some c => some c
  | none => (findBestLoop2 target candidates (none, s1.2)).1

/-- The experienced filter (GetTotalBattles >= MinBattlesForBalance = 5). -/
def experiencedTracks (tracks : List TrackWithRating) : List TrackWithRating :=
  tracks.filter fun t => 5 ≤ t.rating.GetTotalBattles

/-- randomMatch from styles.go.  The retry loop on the right-hand index
is modelled by bumping a colliding draw to the next index modulo the
length: for length ≥ 2 this produces exactly the set of outcomes the
loop can produce (any index different from the left one). -/
def randomMatch (tracks : List TrackWithRating) (a b : Nat) :
    Option TrackWithRating × Option TrackWithRating :=
  if tracks.length < 2 then (none, none)
  else
    let leftIdx := a % tracks.length
    let rightDraw := b % tracks.length
    let rightIdx := if rightDraw = leftIdx then (rightDraw + 1) % tracks.length else rightDraw
    (some (tracks.getD leftIdx dummyTrack), some (tracks.getD rightIdx dummyTrack))

/-- balancedMatch from styles.go. -/
def balancedMatch (tracks : List TrackWithRating) (b1 r1 r2 : Nat) :
    Option TrackWithRating × Option TrackWithRating :=
  let experienced := experiencedTracks tracks
  if experienced.length < 2 then randomMatch tracks r1 r2
  else
    let leftTrack := experienced.getD (b1 % experienced.length) dummyTrack
    (some leftTrack, findBestOpponent leftTrack experienced)

/-- explorationMatch from styles.go.  Note the opponent filter compares
the loop INDEX i of the full track list against leftTrack.Track.ID
(int64(i) != leftTrack.Track.ID in the source). -/
def explorationMatch (tracks : List TrackWithRating) (e1 e2 b1 r1 r2 : Nat) :
    Option TrackWithRating × Option TrackWithRating :=
  let underplayed := tracks.filter fun t => t.rating.GetTotalBattles < 5
  if underplayed.length = 0 then balancedMatch tracks b1 r1 r2
  else
    let leftTrack := underplayed.getD (e1 % underplayed.length) dummyTrack
    let allOthers := ((tracks.enum.filter fun p => ¬((p.1 : Int) = leftTrack.id)).map Prod.snd)
    if allOthers.length = 0 then (none, none)
    else (some leftTrack, some (allOthers.getD (e2 % allOthers.length) dummyTrack))

/-- shouldExplore from styles.go: forced when underplayed tracks are a
strict majority (float64(u)/float64(n) > 0.5 is exactly 2u > n), else
the exploration coin. -/
def shouldExplore (tracks : List TrackWithRating) (exploreCoin : Bool) : Bool :=
  let underplayedTracks := (tracks.filter fun t => t.rating.GetTotalBattles < 5).length
  if 2 * underplayedTracks > tracks.length then true else exploreCoin

/-- GetNextMatch from styles.go; none models the fewer-than-two-tracks
error.  After the fallback randomMatch the pair is always present for
length ≥ 2; the residual branch mirrors the impossible nil return. -/
def GetNextMatch (tracks : List TrackWithRating) (exploreCoin : Bool)
    (e1 e2 b1 r1 r2 r3 r4 : Nat) : Option (TrackWithRating × TrackWithRating) :=
  if tracks.length < 2 then none
  else
    let p :=
      if shouldExplore tracks exploreCoin then explorationMatch tracks e1 e2 b1 r1 r2
      else balancedMatch tracks b1 r1 r2
    match p with
    | (some l, some r) => some (l, r)
    | _ =>
      match randomMatch tracks r3 r4 with
      | (some l, some r) => some (l, r)
      | _ => none

/-- Round half to even on exact .5 ties, nearest otherwise: the
reference rounding behavior the spec states for newRating.  Modelled
from the spec for comparison with the source's mathRound. -/
noncomputable def specRoundHalfEven (x : ℝ) : Int :=
  if Int.fract x = 1 / 2 then (if Even ⌊x⌋ then ⌊x⌋ else ⌊x⌋ + 1)
  else round x

/-! ### Concrete stores used by witnesses and counterexamples -/

/-- Two fresh tracks (ids 1 and 2) at the initial 1200 rating, no
battles, no duels, no write failures. -/
def sampleDB : DB where
  ratings := fun id =>
    if id = 1 then some { trackID := 1, elo := 1200, wins := 0, losses := 0, draws := 0 }
    else if id = 2 then some { trackID := 2, elo := 1200, wins := 0, losses := 0, draws := 0 }
    else none
  duels := []
  failUpdate := fun _ => false
  failCreateDuel := false

/-- Same two tracks, but the store fails the rating write for track 2. -/
def failDB : DB :=
  { sampleDB with failUpdate := fun id => id == 2 }

/-- Track 1 at 1200 and track 2 at 0, both with 30 prior battles
(K = 16): a rating gap large enough that the Elo delta rounds to 0. -/
def gapDB : DB where
  ratings := fun id =>
    if id = 1 then some { trackID := 1, elo := 1200, wins := 30, losses := 0, draws := 0 }
    else if id = 2 then some { trackID := 2, elo := 0, wins := 30, losses := 0, draws := 0 }
    else none
  duels := []
  failUpdate := fun _ => false
  failCreateDuel := false

/-- Three experienced tracks (5 battles each) at 1200/1300/1250: a
concrete all-experienced pool for the matchmaking witnesses. -/
def witnessPool : List TrackWithRating :=
  [{ id := 1, rating := { trackID := 1, elo := 1200, wins := 5, losses := 0, draws := 0 } },
   { id := 2, rating := { trackID := 2, elo := 1300, wins := 5, losses := 0, draws := 0 } },
   { id := 3, rating := { trackID := 3, elo := 1250, wins := 5, losses := 0, draws := 0 } }]

end SongBattle

namespace SongBattle

/-! ### Theorems -/

/-- Claim C10: GetWinRate never divides by zero: it returns 0 when
wins + losses + draws = 0, and otherwise returns wins divided by the
total times 100 (stated multiplicatively, which is equivalent since
the total is nonzero). -/
theorem c10_theorem (r : Rating) :
    (r.GetTotalBattles = 0 → r.GetWinRate = 0) ∧
    (r.GetTotalBattles ≠ 0 →
      r.GetWinRate * (r.GetTotalBattles : ℚ) = (r.wins : ℚ) * 100) := by
  constructor
  · intro h
    simp [Rating.GetWinRate, h]
  · intro h
    have hq : (r.GetTotalBattles : ℚ) ≠ 0 := by exact_mod_cast h
    rw [Rating.GetWinRate, if_neg h]
    field_simp

/-- Witness for C10 at a zero-battle rating and at a 2/1/1 rating. -/
theorem c10_witness :
    (Rating.GetWinRate { trackID := 1, elo := 1200, wins := 0, losses := 0, draws := 0 } = 0) ∧
    (Rating.GetWinRate { trackID := 1, elo := 1200, wins := 2, losses := 1, draws := 1 } *
      ((Rating.GetTotalBattles
        { trackID := 1, elo := 1200, wins := 2, losses := 1, draws := 1 }) : ℚ) =
      ((2 : Int) : ℚ) * 100) :=
  ⟨(c10_theorem _).1 (by decide), (c10_theorem _).2 (by decide)⟩

/-- Claim C9: if either referenced item has no Rating row, ProcessDuel
fails with the not-found store error and the returned store is exactly
the input store: no MatchRecord appended, no partial write. -/
theorem c9_theorem (db : DB) (lid rid : Int) (result : String)
    (h : GetRating db lid = none ∨ GetRating db rid = none) :
    ProcessDuel db lid rid result = (some .notFound, db) := by
  rcases h with h | h
  · simp [ProcessDuel, h]
  · cases hl : GetRating db lid with
    | none => simp [ProcessDuel, hl]
    | some lr => simp [ProcessDuel, hl, h]

/-- Witness for C9: track 3 has no rating row in sampleDB. -/
theorem c9_witness :
    GetRating sampleDB 3 = none ∧
    ProcessDuel sampleDB 1 3 "left" = (some .notFound, sampleDB) :=
  ⟨rfl, c9_theorem sampleDB 1 3 "left" (Or.inr rfl)⟩

/-- Claim C8: processing a skip (both ratings present, the insert
succeeding) leaves every rating row untouched and appends exactly one
duel record with no winner. -/
theorem c8_theorem (db : DB) (lid rid : Int) (lr rr : Rating)
    (h1 : GetRating db lid = some lr) (h2 : GetRating db rid = some rr)
    (hc : db.failCreateDuel = false) :
    ProcessDuel db lid rid "skip" =
      (none, { db with duels := db.duels ++
        [{ leftTrackID := lid, rightTrackID := rid, winnerTrackID := none }] }) := by
  simp [ProcessDuel, h1, h2, recordDuelWithoutEloChange, CreateDuel, hc]

/-- Witness for C8 on sampleDB. -/
theorem c8_witness :
    GetRating sampleDB 1 =
      some { trackID := 1, elo := 1200, wins := 0, losses := 0, draws := 0 } ∧
    GetRating sampleDB 2 =
      some { trackID := 2, elo := 1200, wins := 0, losses := 0, draws := 0 } ∧
    sampleDB.failCreateDuel = false ∧
    ProcessDuel sampleDB 1 2 "skip" =
      (none, { sampleDB with duels := sampleDB.duels ++
        [{ leftTrackID := 1, rightTrackID := 2, winnerTrackID := none }] }) :=
  ⟨rfl, rfl, rfl, c8_theorem sampleDB 1 2 _ _ rfl rfl rfl⟩

/-- Go math.Round never moves the value by more than 1/2. -/
theorem abs_mathRound_sub (x : ℝ) : |((mathRound x : Int) : ℝ) - x| ≤ 1 / 2 := by
  unfold mathRound
  split
  · have h1 : ((⌊-x + 1 / 2⌋ : Int) : ℝ) ≤ -x + 1 / 2 := Int.floor_le _
    have h2 : -x + 1 / 2 - 1 < ((⌊-x + 1 / 2⌋ : Int) : ℝ) := Int.sub_one_lt_floor _
    rw [abs_le]
    push_cast
    constructor <;> linarith
  · have h1 : ((⌊x + 1 / 2⌋ : Int) : ℝ) ≤ x + 1 / 2 := Int.floor_le _
    have h2 : x + 1 / 2 - 1 < ((⌊x + 1 / 2⌋ : Int) : ℝ) := Int.sub_one_lt_floor _
    rw [abs_le]
    constructor <;> linarith

/-- Go math.Round is monotone above any integer bound. -/
theorem le_mathRound (n : Int) (x : ℝ) (h : (n : ℝ) ≤ x) : n ≤ mathRound x := by
  unfold mathRound
  split
  · next hx =>
      have h1 : ⌊-x + 1 / 2⌋ < -n + 1 := by
        apply Int.floor_lt.mpr
        push_cast
        linarith
      omega
  · apply Int.le_floor.mpr
    linarith

/-- Go math.Round is monotone below any integer bound. -/
theorem mathRound_le (n : Int) (x : ℝ) (h : x ≤ (n : ℝ)) : mathRound x ≤ n := by
  unfold mathRound
  split
  · next hx =>
      have h1 : -n ≤ ⌊-x + 1 / 2⌋ := by
        apply Int.le_floor.mpr
        push_cast
        linarith
      omega
  · have h1 : ⌊x + 1 / 2⌋ < n + 1 := by
      apply Int.floor_lt.mpr
      push_cast
      linarith
    omega

/-- On an exact nonnegative .5 tie, math.Round goes up (away from zero). -/
theorem mathRound_tie_nonneg (m : Int) (h : 0 ≤ (m : ℝ) + 1 / 2) :
    mathRound ((m : ℝ) + 1 / 2) = m + 1 := by
  unfold mathRound
  rw [if_neg (by linarith : ¬((m : ℝ) + 1 / 2 < 0))]
  have harg : (m : ℝ) + 1 / 2 + 1 / 2 = ((m + 1 : Int) : ℝ) := by push_cast; ring
  rw [harg, Int.floor_intCast]

/-- On an exact negative .5 tie, math.Round goes down (away from zero). -/
theorem mathRound_tie_neg (m : Int) (h : (m : ℝ) + 1 / 2 < 0) :
    mathRound ((m : ℝ) + 1 / 2) = m := by
  unfold mathRound
  rw [if_pos h]
  have harg : -((m : ℝ) + 1 / 2) + 1 / 2 = ((-m : Int) : ℝ) := by push_cast; ring
  rw [harg, Int.floor_intCast, neg_neg]

/-- The expected score is strictly positive. -/
theorem expectedScore_pos (a b : Int) : 0 < CalculateExpectedScore a b := by
  unfold CalculateExpectedScore
  have h : (0 : ℝ) < (10 : ℝ) ^ ((((b - a) : Int) : ℝ) / 400) :=
    Real.rpow_pos_of_pos (by norm_num) _
  have hd : (0 : ℝ) < 1 + (10 : ℝ) ^ ((((b - a) : Int) : ℝ) / 400) := by linarith
  positivity

/-- The expected score is strictly below one. -/
theorem expectedScore_lt_one (a b : Int) : CalculateExpectedScore a b < 1 := by
  unfold CalculateExpectedScore
  have h : (0 : ℝ) < (10 : ℝ) ^ ((((b - a) : Int) : ℝ) / 400) :=
    Real.rpow_pos_of_pos (by norm_num) _
  rw [div_lt_one (by linarith)]
  linarith

/-- The K factor is at least 16. -/
theorem sixteen_le_GetKFactor (n : Int) : 16 ≤ GetKFactor n := by
  unfold GetKFactor
  split
  · norm_num
  · split <;> norm_num

/-- Expected score between equal ratings is exactly one half. -/
theorem expectedScore_self (e : Int) : CalculateExpectedScore e e = 1 / 2 := by
  unfold CalculateExpectedScore
  rw [sub_self]
  norm_num

/-- Expected score of a 1200 rating against a 0 rating. -/
theorem expectedScore_1200_0 : CalculateExpectedScore 1200 0 = 1000 / 1001 := by
  unfold CalculateExpectedScore
  have h1 : ((((0 : Int) - 1200) : Int) : ℝ) / 400 = ((-3 : Int) : ℝ) := by norm_num
  rw [h1, Real.rpow_intCast]
  norm_num

/-- Expected score of a 0 rating against a 1200 rating. -/
theorem expectedScore_0_1200 : CalculateExpectedScore 0 1200 = 1 / 1001 := by
  unfold CalculateExpectedScore
  have h1 : ((((1200 : Int) - 0) : Int) : ℝ) / 400 = ((3 : Int) : ℝ) := by norm_num
  rw [h1, Real.rpow_intCast]
  norm_num

/-- The K=16 delta of the 1200-rated winner against a 0-rated loser
rounds to zero: the rating does not move. -/
theorem newElo_gap_left :
    CalculateNewElo 1200 1 (CalculateExpectedScore 1200 0) 16 = 1200 := by
  unfold CalculateNewElo mathRound
  rw [expectedScore_1200_0]
  split
  · next hx => exfalso; norm_num at hx
  · rw [Int.floor_eq_iff]
    constructor
    · push_cast
      norm_num
    · push_cast
      norm_num

/-- The K=16 delta of the 0-rated loser against a 1200-rated winner
rounds to zero: the rating does not move. -/
theorem newElo_gap_right :
    CalculateNewElo 0 0 (CalculateExpectedScore 0 1200) 16 = 0 := by
  unfold CalculateNewElo mathRound
  rw [expectedScore_0_1200]
  split
  · next hx =>
      have hfl : ⌊-(((0 : Int) : ℝ) + ((16 : Int) : ℝ) * (0 - 1 / 1001)) + 1 / 2⌋ = 0 := by
        rw [Int.floor_eq_iff]
        constructor
        · push_cast
          norm_num
        · push_cast
          norm_num
      rw [hfl, neg_zero]
  · next hx => exfalso; apply hx; push_cast; norm_num

/-- A successful rating write commits exactly the one keyed row. -/
theorem UpdateRating_ok (db : DB) (r : Rating) (h : db.failUpdate r.trackID = false) :
    UpdateRating db r = (none, { db with ratings := setRating db.ratings r }) := by
  simp [UpdateRating, h]

/-- Track id of ProcessDuel's mutated left rating. -/
theorem leftUpdatedRating_trackID (lr rr : Rating) (result : String) (ls : ℝ) :
    (leftUpdatedRating lr rr result ls).trackID = lr.trackID := rfl

/-- Track id of ProcessDuel's mutated right rating. -/
theorem rightUpdatedRating_trackID (lr rr : Rating) (result : String) (rs : ℝ) :
    (rightUpdatedRating lr rr result rs).trackID = rr.trackID := rfl

/-- Elo of ProcessDuel's mutated left rating. -/
theorem leftUpdatedRating_elo (lr rr : Rating) (result : String) (ls : ℝ) :
    (leftUpdatedRating lr rr result ls).elo =
      CalculateNewElo lr.elo ls (CalculateExpectedScore lr.elo rr.elo)
        (GetKFactor lr.GetTotalBattles) := rfl

/-- Elo of ProcessDuel's mutated right rating. -/
theorem rightUpdatedRating_elo (lr rr : Rating) (result : String) (rs : ℝ) :
    (rightUpdatedRating lr rr result rs).elo =
      CalculateNewElo rr.elo rs (CalculateExpectedScore rr.elo lr.elo)
        (GetKFactor rr.GetTotalBattles) := rfl

/-- Win counter of ProcessDuel's mutated left rating. -/
theorem leftUpdatedRating_wins (lr rr : Rating) (result : String) (ls : ℝ) :
    (leftUpdatedRating lr rr result ls).wins =
      if result = "left" then lr.wins + 1 else lr.wins := rfl

/-- Loss counter of ProcessDuel's mutated left rating. -/
theorem leftUpdatedRating_losses (lr rr : Rating) (result : String) (ls : ℝ) :
    (leftUpdatedRating lr rr result ls).losses =
      if result = "right" then lr.losses + 1 else lr.losses := rfl

/-- Draw counter of ProcessDuel's mutated left rating. -/
theorem leftUpdatedRating_draws (lr rr : Rating) (result : String) (ls : ℝ) :
    (leftUpdatedRating lr rr result ls).draws =
      if result = "draw" then lr.draws + 1 else lr.draws := rfl

/-- Full evaluation of ProcessDuel on a rating-changing outcome when
both ratings are present and every store write succeeds: both rows are
replaced by the mutated ratings and one duel row is appended. -/
theorem ProcessDuel_success_eval (db : DB) (lid rid : Int) (lr rr : Rating)
    (result : String) (ls rs : ℝ)
    (h1 : GetRating db lid = some lr) (h2 : GetRating db rid = some rr)
    (hwl : lr.trackID = lid) (hwr : rr.trackID = rid)
    (hsc : duelScores result = some (ls, rs)) (hskip : result ≠ "skip")
    (hf1 : db.failUpdate lid = false) (hf2 : db.failUpdate rid = false)
    (hfc : db.failCreateDuel = false) :
    ProcessDuel db lid rid result =
      (none, { db with
        ratings :=
          setRating (setRating db.ratings (leftUpdatedRating lr rr result ls))
            (rightUpdatedRating lr rr result rs),
        duels := db.duels ++
          [{ leftTrackID := lid, rightTrackID := rid, winnerTrackID := processWinnerID lid rid result }] }) := by
  simp [ProcessDuel, h1, h2, hsc, hskip, UpdateRating, CreateDuel,
    recordDuelWithoutEloChange, leftUpdatedRating, rightUpdatedRating,
    processWinnerID, hwl, hwr, hf1, hf2, hfc]

/-- A failed rating write commits nothing. -/
theorem UpdateRating_fail (db : DB) (r : Rating) (h : db.failUpdate r.trackID = true) :
    UpdateRating db r = (some .storeFailure, db) := by
  simp [UpdateRating, h]

/-- A successful duel insert appends exactly one row. -/
theorem CreateDuel_ok (db : DB) (d : Duel) (h : db.failCreateDuel = false) :
    CreateDuel db d = (none, { db with duels := db.duels ++ [d] }) := by
  simp [CreateDuel, h]

/-- Counterexample for C4: at oldRating 0, actualScore 1/2,
expectedScore 0, k 1, the code rounds the exact tie 0.5 up to 1
(math.Round, half away from zero), while the claimed reference
rounding (ties to even) yields 0. -/
theorem c4_counterexample :
    CalculateNewElo 0 (1 / 2) 0 1 = 1 ∧
    specRoundHalfEven (((0 : Int) : ℝ) + ((1 : Int) : ℝ) * ((1 / 2 : ℝ) - 0)) = 0 := by
  have harg : ((0 : Int) : ℝ) + ((1 : Int) : ℝ) * ((1 / 2 : ℝ) - 0) = 1 / 2 := by norm_num
  constructor
  · unfold CalculateNewElo mathRound
    rw [harg, if_neg (by norm_num : ¬((1 / 2 : ℝ) < 0))]
    have h1 : (1 / 2 : ℝ) + 1 / 2 = ((1 : Int) : ℝ) := by norm_num
    rw [h1, Int.floor_intCast]
  · rw [harg]
    have hfr : Int.fract (1 / 2 : ℝ) = 1 / 2 := by
      rw [Int.fract_eq_self]
      constructor <;> norm_num
    have hfl : ⌊(1 / 2 : ℝ)⌋ = 0 := by
      rw [Int.floor_eq_iff]
      norm_num
    unfold specRoundHalfEven
    rw [if_pos hfr, hfl, if_pos even_zero]

/-- Amended claim C4: newRating(old, a, e, k) equals old + k*(a-e)
rounded to the nearest integer, with exact .5 ties rounded away from
zero (Go math.Round) — not to even. -/
theorem c4_theorem (oldElo kFactor : Int) (a e : ℝ) :
    |((CalculateNewElo oldElo a e kFactor : Int) : ℝ) -
        ((oldElo : ℝ) + (kFactor : ℝ) * (a - e))| ≤ 1 / 2 ∧
    ∀ m : Int, (oldElo : ℝ) + (kFactor : ℝ) * (a - e) = (m : ℝ) + 1 / 2 →
      (0 ≤ (m : ℝ) + 1 / 2 → CalculateNewElo oldElo a e kFactor = m + 1) ∧
      ((m : ℝ) + 1 / 2 < 0 → CalculateNewElo oldElo a e kFactor = m) := by
  constructor
  · unfold CalculateNewElo
    exact abs_mathRound_sub _
  · intro m hm
    unfold CalculateNewElo
    rw [hm]
    exact ⟨fun h => mathRound_tie_nonneg m h, fun h => mathRound_tie_neg m h⟩

/-- Witness for C4 at oldRating 0, actualScore 1/2, expectedScore 0, k 1. -/
theorem c4_witness :
    |((CalculateNewElo 0 (1 / 2) 0 1 : Int) : ℝ) -
        (((0 : Int) : ℝ) + ((1 : Int) : ℝ) * ((1 / 2 : ℝ) - 0))| ≤ 1 / 2 ∧
    CalculateNewElo 0 (1 / 2) 0 1 = 0 + 1 :=
  ⟨(c4_theorem 0 1 (1 / 2) 0).1,
   ((c4_theorem 0 1 (1 / 2) 0).2 0 (by norm_num)).1 (by norm_num)⟩

/-- Counterexample for C5: in gapDB, track 1 (rating 1200, K=16) beats
track 2 (rating 0, K=16); the call succeeds, yet neither rating moves
(the Elo delta 16/1001 rounds to zero), so neither inequality is
strict. -/
theorem c5_counterexample :
    (ProcessDuel gapDB 1 2 "left").1 = none ∧
    GetRating (ProcessDuel gapDB 1 2 "left").2 1 =
      some { trackID := 1, elo := 1200, wins := 31, losses := 0, draws := 0 } ∧
    GetRating (ProcessDuel gapDB 1 2 "left").2 2 =
      some { trackID := 2, elo := 0, wins := 30, losses := 1, draws := 0 } := by
  refine ⟨?_, ?_, ?_⟩ <;>
    simp [ProcessDuel, GetRating, gapDB, duelScores, Rating.GetTotalBattles,
      GetKFactor, UpdateRating, setRating, recordDuelWithoutEloChange, CreateDuel,
      newElo_gap_left, newElo_gap_right]

/-- Amended claim C5: when A beats B (both ratings present and all
writes succeeding), A's new rating is >= its old rating and B's new
rating is <= its old rating; the inequalities are not strict in
general, since a K-scaled delta below 0.5 rounds to zero. -/
theorem c5_theorem (db : DB) (lid rid : Int) (lr rr : Rating) (result : String)
    (h1 : GetRating db lid = some lr) (h2 : GetRating db rid = some rr)
    (hwl : lr.trackID = lid) (hwr : rr.trackID = rid) (hne : lid ≠ rid)
    (hres : result = "left" ∨ result = "right")
    (hf1 : db.failUpdate lid = false) (hf2 : db.failUpdate rid = false)
    (hfc : db.failCreateDuel = false) :
    ∃ db2 lr2 rr2,
      ProcessDuel db lid rid result = (none, db2) ∧
      GetRating db2 lid = some lr2 ∧ GetRating db2 rid = some rr2 ∧
      (result = "left" → lr.elo ≤ lr2.elo ∧ rr2.elo ≤ rr.elo) ∧
      (result = "right" → rr.elo ≤ rr2.elo ∧ lr2.elo ≤ lr.elo) := by
  have h1' : db.ratings lid = some lr := h1
  have h2' : db.ratings rid = some rr := h2
  have hkl := sixteen_le_GetKFactor lr.GetTotalBattles
  have hkr := sixteen_le_GetKFactor rr.GetTotalBattles
  have hp1 := expectedScore_pos lr.elo rr.elo
  have hq1 := expectedScore_lt_one lr.elo rr.elo
  have hp2 := expectedScore_pos rr.elo lr.elo
  have hq2 := expectedScore_lt_one rr.elo lr.elo
  rcases hres with hres | hres <;> subst hres
  · have heval := ProcessDuel_success_eval db lid rid lr rr "left" 1 0 h1 h2 hwl hwr
      (by simp [duelScores]) (by decide) hf1 hf2 hfc
    refine ⟨_, leftUpdatedRating lr rr "left" 1, rightUpdatedRating lr rr "left" 0,
      heval, ?_, ?_, ?_, ?_⟩
    · simp [GetRating, setRating, leftUpdatedRating_trackID, rightUpdatedRating_trackID,
        hwl, hwr, hne, hne.symm, h1']
    · simp [GetRating, setRating, leftUpdatedRating_trackID, rightUpdatedRating_trackID,
        hwl, hwr, hne, hne.symm, h2']
    · intro _
      constructor
      · rw [leftUpdatedRating_elo]
        apply le_mathRound
        have hk : (16 : ℝ) ≤ ((GetKFactor lr.GetTotalBattles : Int) : ℝ) := by
          exact_mod_cast hkl
        nlinarith [mul_nonneg (by linarith : (0 : ℝ) ≤ ((GetKFactor lr.GetTotalBattles : Int) : ℝ))
          (by linarith : (0 : ℝ) ≤ 1 - CalculateExpectedScore lr.elo rr.elo)]
      · rw [rightUpdatedRating_elo]
        apply mathRound_le
        have hk : (16 : ℝ) ≤ ((GetKFactor rr.GetTotalBattles : Int) : ℝ) := by
          exact_mod_cast hkr
        nlinarith [mul_nonneg (by linarith : (0 : ℝ) ≤ ((GetKFactor rr.GetTotalBattles : Int) : ℝ))
          (by linarith : (0 : ℝ) ≤ CalculateExpectedScore rr.elo lr.elo)]
    · intro habs
      exact absurd habs (by decide)
  · have heval := ProcessDuel_success_eval db lid rid lr rr "right" 0 1 h1 h2 hwl hwr
      (by simp [duelScores]) (by decide) hf1 hf2 hfc
    refine ⟨_, leftUpdatedRating lr rr "right" 0, rightUpdatedRating lr rr "right" 1,
      heval, ?_, ?_, ?_, ?_⟩
    · simp [GetRating, setRating, leftUpdatedRating_trackID, rightUpdatedRating_trackID,
        hwl, hwr, hne, hne.symm, h1']
    · simp [GetRating, setRating, leftUpdatedRating_trackID, rightUpdatedRating_trackID,
        hwl, hwr, hne, hne.symm, h2']
    · intro habs
      exact absurd habs (by decide)
    · intro _
      constructor
      · rw [rightUpdatedRating_elo]
        apply le_mathRound
        have hk : (16 : ℝ) ≤ ((GetKFactor rr.GetTotalBattles : Int) : ℝ) := by
          exact_mod_cast hkr
        nlinarith [mul_nonneg (by linarith : (0 : ℝ) ≤ ((GetKFactor rr.GetTotalBattles : Int) : ℝ))
          (by linarith : (0 : ℝ) ≤ 1 - CalculateExpectedScore rr.elo lr.elo)]
      · rw [leftUpdatedRating_elo]
        apply mathRound_le
        have hk : (16 : ℝ) ≤ ((GetKFactor lr.GetTotalBattles : Int) : ℝ) := by
          exact_mod_cast hkl
        nlinarith [mul_nonneg (by linarith : (0 : ℝ) ≤ ((GetKFactor lr.GetTotalBattles : Int) : ℝ))
          (by linarith : (0 : ℝ) ≤ CalculateExpectedScore lr.elo rr.elo)]

/-- Witness for C5 on sampleDB: two fresh 1200 ratings, left wins. -/
theorem c5_witness :
    ∃ db2 lr2 rr2,
      ProcessDuel sampleDB 1 2 "left" = (none, db2) ∧
      GetRating db2 1 = some lr2 ∧ GetRating db2 2 = some rr2 ∧
      ("left" = "left" → (1200 : Int) ≤ lr2.elo ∧ rr2.elo ≤ 1200) ∧
      ("left" = "right" → (1200 : Int) ≤ rr2.elo ∧ lr2.elo ≤ 1200) :=
  c5_theorem sampleDB 1 2 _ _ "left" rfl rfl rfl rfl (by decide) (Or.inl rfl) rfl rfl rfl

/-- Counterexample for C2: in failDB, the left rating write commits but
the right rating write fails; the failed call leaves track 1's stored
rating changed and track 2's stale, so the two writes were not applied
together-or-not-at-all. -/
theorem c2_counterexample :
    (ProcessDuel failDB 1 2 "left").1 = some .storeFailure ∧
    GetRating (ProcessDuel failDB 1 2 "left").2 1 ≠ GetRating failDB 1 ∧
    GetRating (ProcessDuel failDB 1 2 "left").2 2 = GetRating failDB 2 := by
  refine ⟨?_, ?_, ?_⟩ <;>
    simp [ProcessDuel, GetRating, failDB, sampleDB, duelScores, UpdateRating,
      setRating, recordDuelWithoutEloChange, CreateDuel, Rating.GetTotalBattles,
      GetKFactor]

/-- Amended claim C2: the two rating writes are sequential, not atomic.
If the first (left) write fails, the store is unchanged; but if the
left write succeeds and the right write fails, the call returns the
store failure with the left participant's row already replaced by its
updated rating and the right participant's row stale. -/
theorem c2_theorem (db : DB) (lid rid : Int) (lr rr : Rating) (result : String)
    (h1 : GetRating db lid = some lr) (h2 : GetRating db rid = some rr)
    (hwl : lr.trackID = lid) (hwr : rr.trackID = rid) (hne : lid ≠ rid)
    (hres : result = "left" ∨ result = "right" ∨ result = "draw") :
    (db.failUpdate lid = true → ProcessDuel db lid rid result = (some .storeFailure, db)) ∧
    (db.failUpdate lid = false → db.failUpdate rid = true →
      ∃ lr2, ProcessDuel db lid rid result =
          (some .storeFailure, { db with ratings := setRating db.ratings lr2 }) ∧
        GetRating { db with ratings := setRating db.ratings lr2 } lid = some lr2 ∧
        lr2 ≠ lr ∧
        GetRating { db with ratings := setRating db.ratings lr2 } rid = some rr) := by
  have h1' : db.ratings lid = some lr := h1
  have h2' : db.ratings rid = some rr := h2
  rcases hres with hres | hres | hres <;> subst hres
  · constructor
    · intro hf
      simp [ProcessDuel, h1, h2, duelScores, UpdateRating, hwl, hf]
    · intro hfa hfb
      refine ⟨leftUpdatedRating lr rr "left" 1, ?_, ?_, ?_, ?_⟩
      · simp [ProcessDuel, h1, h2, duelScores, UpdateRating, leftUpdatedRating,
          hwl, hwr, hfa, hfb]
      · simp [GetRating, setRating, leftUpdatedRating_trackID, hwl, h1']
      · intro heq
        have h4 := congrArg Rating.wins heq
        rw [leftUpdatedRating_wins, if_pos rfl] at h4
        omega
      · simp [GetRating, setRating, leftUpdatedRating_trackID, hwl, hne.symm, h2']
  · constructor
    · intro hf
      simp [ProcessDuel, h1, h2, duelScores, UpdateRating, hwl, hf]
    · intro hfa hfb
      refine ⟨leftUpdatedRating lr rr "right" 0, ?_, ?_, ?_, ?_⟩
      · simp [ProcessDuel, h1, h2, duelScores, UpdateRating, leftUpdatedRating,
          hwl, hwr, hfa, hfb]
      · simp [GetRating, setRating, leftUpdatedRating_trackID, hwl, h1']
      · intro heq
        have h4 := congrArg Rating.losses heq
        rw [leftUpdatedRating_losses, if_pos rfl] at h4
        omega
      · simp [GetRating, setRating, leftUpdatedRating_trackID, hwl, hne.symm, h2']
  · constructor
    · intro hf
      simp [ProcessDuel, h1, h2, duelScores, UpdateRating, hwl, hf]
    · intro hfa hfb
      refine ⟨leftUpdatedRating lr rr "draw" (1 / 2), ?_, ?_, ?_, ?_⟩
      · simp [ProcessDuel, h1, h2, duelScores, UpdateRating, leftUpdatedRating,
          hwl, hwr, hfa, hfb]
      · simp [GetRating, setRating, leftUpdatedRating_trackID, hwl, h1']
      · intro heq
        have h4 := congrArg Rating.draws heq
        rw [leftUpdatedRating_draws, if_pos rfl] at h4
        omega
      · simp [GetRating, setRating, leftUpdatedRating_trackID, hwl, hne.symm, h2']

/-- Witness for C2 on failDB: left write commits, right write fails. -/
theorem c2_witness :
    ∃ lr2, ProcessDuel failDB 1 2 "left" =
        (some .storeFailure, { failDB with ratings := setRating failDB.ratings lr2 }) ∧
      GetRating { failDB with ratings := setRating failDB.ratings lr2 } 1 = some lr2 ∧
      lr2 ≠ { trackID := 1, elo := 1200, wins := 0, losses := 0, draws := 0 } ∧
      GetRating { failDB with ratings := setRating failDB.ratings lr2 } 2 =
        some { trackID := 2, elo := 1200, wins := 0, losses := 0, draws := 0 } :=
  (c2_theorem failDB 1 2 _ _ "left" rfl rfl rfl rfl (by decide) (Or.inl rfl)).2 rfl rfl

/-- Claim C6: with both ratings present and all writes succeeding,
SimulateDuel reports exactly the transition ProcessDuel persists, for
every valid outcome of the four-way enum: on left/right/draw the
projected newElo values and deltas equal the stored ones, and on skip
both paths agree on zero deltas with the stored ratings untouched
(SimulateDuel itself returns no store, so it persists nothing by
construction). -/
theorem c6_theorem (db : DB) (lid rid : Int) (lr rr : Rating) (result : String)
    (h1 : GetRating db lid = some lr) (h2 : GetRating db rid = some rr)
    (hwl : lr.trackID = lid) (hwr : rr.trackID = rid) (hne : lid ≠ rid)
    (hres : result = "left" ∨ result = "right" ∨ result = "draw" ∨ result = "skip")
    (hf1 : db.failUpdate lid = false) (hf2 : db.failUpdate rid = false)
    (hfc : db.failCreateDuel = false) :
    ∃ db2 lr2 rr2,
      ProcessDuel db lid rid result = (none, db2) ∧
      GetRating db2 lid = some lr2 ∧ GetRating db2 rid = some rr2 ∧
      SimulateDuel db lid rid result =
        (none, some [⟨lid, lr.elo, lr2.elo, lr2.elo - lr.elo, result⟩,
                     ⟨rid, rr.elo, rr2.elo, rr2.elo - rr.elo, result⟩]) := by
  have h1' : db.ratings lid = some lr := h1
  have h2' : db.ratings rid = some rr := h2
  have key : ∀ res ls rs, duelScores res = some (ls, rs) → res ≠ "skip" →
      ∃ db2 lr2 rr2,
        ProcessDuel db lid rid res = (none, db2) ∧
        GetRating db2 lid = some lr2 ∧ GetRating db2 rid = some rr2 ∧
        SimulateDuel db lid rid res =
          (none, some [⟨lid, lr.elo, lr2.elo, lr2.elo - lr.elo, res⟩,
                       ⟨rid, rr.elo, rr2.elo, rr2.elo - rr.elo, res⟩]) := by
    intro res ls rs hsc hskip
    have heval := ProcessDuel_success_eval db lid rid lr rr res ls rs h1 h2 hwl hwr
      hsc hskip hf1 hf2 hfc
    refine ⟨_, leftUpdatedRating lr rr res ls, rightUpdatedRating lr rr res rs,
      heval, ?_, ?_, ?_⟩
    · simp [GetRating, setRating, leftUpdatedRating_trackID, rightUpdatedRating_trackID,
        hwl, hwr, hne, hne.symm, h1']
    · simp [GetRating, setRating, leftUpdatedRating_trackID, rightUpdatedRating_trackID,
        hwl, hwr, hne, hne.symm, h2']
    · simp [SimulateDuel, h1, h2, hsc, hskip, leftUpdatedRating_elo,
        rightUpdatedRating_elo]
  rcases hres with hres | hres | hres | hres <;> subst hres
  · exact key "left" 1 0 (by simp [duelScores]) (by decide)
  · exact key "right" 0 1 (by simp [duelScores]) (by decide)
  · exact key "draw" (1 / 2) (1 / 2) (by simp [duelScores]) (by decide)
  · refine ⟨{ db with duels := db.duels ++
        [{ leftTrackID := lid, rightTrackID := rid, winnerTrackID := none }] },
      lr, rr, ?_, h1', h2', ?_⟩
    · simp [ProcessDuel, h1, h2, recordDuelWithoutEloChange, CreateDuel, hfc]
    · simp [SimulateDuel, h1, h2]

/-- Witness for C6 on sampleDB with a draw. -/
theorem c6_witness :
    ∃ db2 lr2 rr2,
      ProcessDuel sampleDB 1 2 "draw" = (none, db2) ∧
      GetRating db2 1 = some lr2 ∧ GetRating db2 2 = some rr2 ∧
      SimulateDuel sampleDB 1 2 "draw" =
        (none, some [⟨1, 1200, lr2.elo, lr2.elo - 1200, "draw"⟩,
                     ⟨2, 1200, rr2.elo, rr2.elo - 1200, "draw"⟩]) :=
  c6_theorem sampleDB 1 2 _ _ "draw" rfl rfl rfl rfl (by decide)
    (Or.inr (Or.inr (Or.inl rfl))) rfl rfl rfl

/-- Counterexample for C1: with both ratings present, an outcome value
outside the four-way enum makes ProcessDuel return nil error (no
failure of any kind) with the store unchanged — it does not fail with
an invalid-outcome error. -/
theorem c1_counterexample :
    ProcessDuel sampleDB 1 2 "invalid" = (none, sampleDB) := rfl

/-- Amended claim C1: for any outcome value outside the four-way enum
(and both ratings present), ProcessDuel silently succeeds, returning
no error and leaving the store untouched. -/
theorem c1_theorem (db : DB) (lid rid : Int) (lr rr : Rating) (result : String)
    (h1 : GetRating db lid = some lr) (h2 : GetRating db rid = some rr)
    (hres : result ≠ "left" ∧ result ≠ "right" ∧ result ≠ "draw" ∧ result ≠ "skip") :
    ProcessDuel db lid rid result = (none, db) := by
  obtain ⟨ha, hb, hc, hd⟩ := hres
  simp [ProcessDuel, h1, h2, duelScores, ha, hb, hc, hd]

/-- Witness for C1 at the outcome string "invalid" on sampleDB. -/
theorem c1_witness :
    GetRating sampleDB 1 =
      some { trackID := 1, elo := 1200, wins := 0, losses := 0, draws := 0 } ∧
    ProcessDuel sampleDB 1 2 "invalid" = (none, sampleDB) :=
  ⟨rfl, c1_theorem sampleDB 1 2 _ _ "invalid" rfl rfl (by decide)⟩

/-- intAbs satisfies the triangle-style bound used to keep Elo
differences below the max-int sentinel. -/
theorem intAbs_sub_le (a b : Int) : intAbs (a - b) ≤ intAbs a + intAbs b := by
  unfold intAbs
  split
  · split
    · split <;> omega
    · split <;> omega
  · split
    · split <;> omega
    · split <;> omega

/-- Invariant of findBestOpponent's second (unrestricted) loop: the
final bestDifference never exceeds the starting one, is at most every
valid candidate's Elo difference, and the final bestOpponent is either
the starting accumulator untouched or a valid candidate realising the
final bestDifference. -/
theorem findBestLoop2_spec (t : TrackWithRating) :
    ∀ (cs : List TrackWithRating) (b0 : Option TrackWithRating) (d0 : Int),
      (findBestLoop2 t cs (b0, d0)).2 ≤ d0 ∧
      (∀ c ∈ cs, c.id ≠ t.id →
        (findBestLoop2 t cs (b0, d0)).2 ≤ intAbs (c.rating.elo - t.rating.elo)) ∧
      (((findBestLoop2 t cs (b0, d0)).1 = b0 ∧ (findBestLoop2 t cs (b0, d0)).2 = d0) ∨
        ∃ m ∈ cs, (findBestLoop2 t cs (b0, d0)).1 = some m ∧ m.id ≠ t.id ∧
          (findBestLoop2 t cs (b0, d0)).2 = intAbs (m.rating.elo - t.rating.elo)) := by
  intro cs
  induction cs with
  | nil =>
    intro b0 d0
    exact ⟨le_refl _, by simp, Or.inl ⟨rfl, rfl⟩⟩
  | cons c rest ih =>
    intro b0 d0
    by_cases hid : c.id = t.id
    · have hstep : findBestLoop2 t (c :: rest) (b0, d0) = findBestLoop2 t rest (b0, d0) := by
        simp [findBestLoop2, hid]
      obtain ⟨ha, hb, hc⟩ := ih b0 d0
      rw [hstep]
      refine ⟨ha, ?_, ?_⟩
      · intro x hx hxid
        rcases List.mem_cons.mp hx with h | h
        · subst h; exact absurd hid hxid
        · exact hb x h hxid
      · rcases hc with h | ⟨m, hm, h1, h2, h3⟩
        · exact Or.inl h
        · exact Or.inr ⟨m, List.mem_cons_of_mem _ hm, h1, h2, h3⟩
    · by_cases hlt : intAbs (c.rating.elo - t.rating.elo) < d0
      · have hstep : findBestLoop2 t (c :: rest) (b0, d0) =
            findBestLoop2 t rest (some c, intAbs (c.rating.elo - t.rating.elo)) := by
          simp [findBestLoop2, hid, hlt]
        obtain ⟨ha, hb, hc⟩ := ih (some c) (intAbs (c.rating.elo - t.rating.elo))
        rw [hstep]
        refine ⟨le_trans ha (le_of_lt hlt), ?_, ?_⟩
        · intro x hx hxid
          rcases List.mem_cons.mp hx with h | h
          · subst h; exact ha
          · exact hb x h hxid
        · rcases hc with ⟨h1, h2⟩ | ⟨m, hm, h1, h2, h3⟩
          · exact Or.inr ⟨c, List.mem_cons_self _ _, h1, hid, h2⟩
          · exact Or.inr ⟨m, List.mem_cons_of_mem _ hm, h1, h2, h3⟩
      · have hstep : findBestLoop2 t (c :: rest) (b0, d0) = findBestLoop2 t rest (b0, d0) := by
          simp [findBestLoop2, hid, hlt]
        obtain ⟨ha, hb, hc⟩ := ih b0 d0
        rw [hstep]
        refine ⟨ha, ?_, ?_⟩
        · intro x hx hxid
          rcases List.mem_cons.mp hx with h | h
          · subst h; exact le_trans ha (not_lt.mp hlt)
          · exact hb x h hxid
        · rcases hc with h | ⟨m, hm, h1, h2, h3⟩
          · exact Or.inl h
          · exact Or.inr ⟨m, List.mem_cons_of_mem _ hm, h1, h2, h3⟩

/-- Invariant of findBestOpponent's first (range-restricted) loop:
like the second loop, but only candidates within the 100-point range
compete, and a found opponent is always within that range. -/
theorem findBestLoop1_spec (t : TrackWithRating) :
    ∀ (cs : List TrackWithRating) (b0 : Option TrackWithRating) (d0 : Int),
      (findBestLoop1 t cs (b0, d0)).2 ≤ d0 ∧
      (∀ c ∈ cs, c.id ≠ t.id → intAbs (c.rating.elo - t.rating.elo) ≤ 100 →
        (findBestLoop1 t cs (b0, d0)).2 ≤ intAbs (c.rating.elo - t.rating.elo)) ∧
      (((findBestLoop1 t cs (b0, d0)).1 = b0 ∧ (findBestLoop1 t cs (b0, d0)).2 = d0) ∨
        ∃ m ∈ cs, (findBestLoop1 t cs (b0, d0)).1 = some m ∧ m.id ≠ t.id ∧
          (findBestLoop1 t cs (b0, d0)).2 = intAbs (m.rating.elo - t.rating.elo) ∧
          intAbs (m.rating.elo - t.rating.elo) ≤ 100) := by
  intro cs
  induction cs with
  | nil =>
    intro b0 d0
    exact ⟨le_refl _, by simp, Or.inl ⟨rfl, rfl⟩⟩
  | cons c rest ih =>
    intro b0 d0
    by_cases hid : c.id = t.id
    · have hstep : findBestLoop1 t (c :: rest) (b0, d0) = findBestLoop1 t rest (b0, d0) := by
        simp [findBestLoop1, hid]
      obtain ⟨ha, hb, hc⟩ := ih b0 d0
      rw [hstep]
      refine ⟨ha, ?_, ?_⟩
      · intro x hx hxid hx100
        rcases List.mem_cons.mp hx with h | h
        · subst h; exact absurd hid hxid
        · exact hb x h hxid hx100
      · rcases hc with h | ⟨m, hm, h1, h2, h3, h4⟩
        · exact Or.inl h
        · exact Or.inr ⟨m, List.mem_cons_of_mem _ hm, h1, h2, h3, h4⟩
    · by_cases hcond : intAbs (c.rating.elo - t.rating.elo) ≤ 100 ∧
          intAbs (c.rating.elo - t.rating.elo) < d0
      · have hstep : findBestLoop1 t (c :: rest) (b0, d0) =
            findBestLoop1 t rest (some c, intAbs (c.rating.elo - t.rating.elo)) := by
          simp [findBestLoop1, hid, hcond.1, hcond.2]
        obtain ⟨ha, hb, hc⟩ := ih (some c) (intAbs (c.rating.elo - t.rating.elo))
        rw [hstep]
        refine ⟨le_trans ha (le_of_lt hcond.2), ?_, ?_⟩
        · intro x hx hxid hx100
          rcases List.mem_cons.mp hx with h | h
          · subst h; exact ha
          · exact hb x h hxid hx100
        · rcases hc with ⟨h1, h2⟩ | ⟨m, hm, h1, h2, h3, h4⟩
          · exact Or.inr ⟨c, List.mem_cons_self _ _, h1, hid, h2, hcond.1⟩
          · exact Or.inr ⟨m, List.mem_cons_of_mem _ hm, h1, h2, h3, h4⟩
      · have hstep : findBestLoop1 t (c :: rest) (b0, d0) = findBestLoop1 t rest (b0, d0) := by
          rcases Decidable.not_and_iff_or_not.mp hcond with h | h
          · simp [findBestLoop1, hid, h]
          · simp [findBestLoop1, hid, h]
        obtain ⟨ha, hb, hc⟩ := ih b0 d0
        rw [hstep]
        refine ⟨ha, ?_, ?_⟩
        · intro x hx hxid hx100
          rcases List.mem_cons.mp hx with h | h
          · subst h
            have hnd : ¬(intAbs (x.rating.elo - t.rating.elo) < d0) := fun hlt =>
              hcond ⟨hx100, hlt⟩
            exact le_trans ha (not_lt.mp hnd)
          · exact hb x h hxid hx100
        · rcases hc with h | ⟨m, hm, h1, h2, h3, h4⟩
          · exact Or.inl h
          · exact Or.inr ⟨m, List.mem_cons_of_mem _ hm, h1, h2, h3, h4⟩

/-- findBestOpponent returns a candidate with a different id whose Elo
difference is globally minimal among such candidates, and within the
100-point range whenever some valid candidate is within it — provided
at least one valid candidate has a difference below the max-int
sentinel. -/
theorem findBestOpponent_spec (t : TrackWithRating) (cs : List TrackWithRating)
    (hex : ∃ c ∈ cs, c.id ≠ t.id ∧ intAbs (c.rating.elo - t.rating.elo) < maxIntGo) :
    ∃ m, findBestOpponent t cs = some m ∧ m ∈ cs ∧ m.id ≠ t.id ∧
      (∀ c ∈ cs, c.id ≠ t.id →
        intAbs (m.rating.elo - t.rating.elo) ≤ intAbs (c.rating.elo - t.rating.elo)) ∧
      ((∃ c ∈ cs, c.id ≠ t.id ∧ intAbs (c.rating.elo - t.rating.elo) ≤ 100) →
        intAbs (m.rating.elo - t.rating.elo) ≤ 100) := by
  obtain ⟨ha1, hb1, hc1⟩ := findBestLoop1_spec t cs none maxIntGo
  unfold findBestOpponent
  cases hmatch : (findBestLoop1 t cs (none, maxIntGo)).1 with
  | some m =>
    rcases hc1 with ⟨h1, _⟩ | ⟨m1, hm1, h1, h2, h3, h4⟩
    · rw [hmatch] at h1
      cases h1
    · rw [hmatch] at h1
      injection h1 with h1
      subst h1
      refine ⟨m, ?_, hm1, h2, ?_, ?_⟩
      · simp only [hmatch]
      · intro c hc hcid
        by_cases hc100 : intAbs (c.rating.elo - t.rating.elo) ≤ 100
        · have hle := hb1 c hc hcid hc100
          rw [h3] at hle
          exact hle
        · omega
      · intro _
        exact h4
  | none =>
    have hd0 : (findBestLoop1 t cs (none, maxIntGo)).2 = maxIntGo := by
      rcases hc1 with ⟨_, h⟩ | ⟨m1, _, h1, _⟩
      · exact h
      · rw [hmatch] at h1
        cases h1
    obtain ⟨ha2, hb2, hc2⟩ :=
      findBestLoop2_spec t cs none ((findBestLoop1 t cs (none, maxIntGo)).2)
    rcases hc2 with ⟨h1, h2⟩ | ⟨m, hm, h1, h2, h3⟩
    · exfalso
      obtain ⟨c, hc, hcid, hclt⟩ := hex
      have hle := hb2 c hc hcid
      rw [h2, hd0] at hle
      omega
    · refine ⟨m, ?_, hm, h2, ?_, ?_⟩
      · simp only [hmatch]
        exact h1
      · intro c hc hcid
        have hle := hb2 c hc hcid
        rw [h3] at hle
        exact hle
      · intro hin
        obtain ⟨c, hc, hcid, hc100⟩ := hin
        have hle := hb2 c hc hcid
        rw [h3] at hle
        omega

/-- In a pool of at least two distinct-id candidates with bounded elos
that contains the target, findBestOpponent finds a globally closest
other candidate (the existence plumbing over c7's hypotheses). -/
theorem c7_core (E : List TrackWithRating) (l : TrackWithRating)
    (hEnodup : (E.map TrackWithRating.id).Nodup) (hlmem : l ∈ E) (h2 : 2 ≤ E.length)
    (habs : ∀ c ∈ E, intAbs c.rating.elo ≤ 2 ^ 61) :
    ∃ m, findBestOpponent l E = some m ∧ m ∈ E ∧ m.id ≠ l.id ∧
      (∀ c ∈ E, c.id ≠ l.id →
        intAbs (m.rating.elo - l.rating.elo) ≤ intAbs (c.rating.elo - l.rating.elo)) ∧
      ((∃ c ∈ E, c.id ≠ l.id ∧ intAbs (c.rating.elo - l.rating.elo) ≤ 100) →
        intAbs (m.rating.elo - l.rating.elo) ≤ 100) := by
  have hbound : ∀ c ∈ E, intAbs (c.rating.elo - l.rating.elo) < maxIntGo := by
    intro c hc
    have hc1 := habs c hc
    have hc2 := habs l hlmem
    have hc3 := intAbs_sub_le c.rating.elo l.rating.elo
    have hlit : (2 : Int) ^ 61 = 2305843009213693952 := by norm_num
    rw [hlit] at hc1 hc2
    unfold maxIntGo
    omega
  cases E with
  | nil => simp at h2
  | cons a E1 =>
    cases E1 with
    | nil => simp at h2
    | cons b E2 =>
      have hnd := hEnodup
      rw [List.map_cons, List.map_cons, List.nodup_cons] at hnd
      have hab : a.id ≠ b.id := by
        intro heq
        exact hnd.1 (by rw [heq]; exact List.mem_cons_self _ _)
      obtain ⟨c, hcmem, hcid⟩ : ∃ c ∈ a :: b :: E2, c.id ≠ l.id := by
        by_cases hla : l.id = a.id
        · exact ⟨b, List.mem_cons_of_mem _ (List.mem_cons_self _ _),
            by rw [hla]; exact hab.symm⟩
        · exact ⟨a, List.mem_cons_self _ _, fun heq => hla heq.symm⟩
      exact findBestOpponent_spec l (a :: b :: E2) ⟨c, hcmem, hcid, hbound c hcmem⟩

/-- Claim C7: in balanced mode with at least 2 experienced items (ids
pairwise distinct, elos within int64-safe bounds), the right-hand pick
is an experienced candidate other than the left item whose Elo
difference is minimal among all such candidates, and it lies within
the 100-point acceptable range whenever any valid candidate does
(otherwise it is simply the globally closest). -/
theorem c7_theorem (tracks : List TrackWithRating) (b1 r1 r2 : Nat)
    (hnodup : (tracks.map TrackWithRating.id).Nodup)
    (hexp : 2 ≤ (experiencedTracks tracks).length)
    (habs : ∀ c ∈ tracks, intAbs c.rating.elo ≤ 2 ^ 61) :
    ∃ l m, balancedMatch tracks b1 r1 r2 = (some l, some m) ∧
      l ∈ experiencedTracks tracks ∧ m ∈ experiencedTracks tracks ∧ m.id ≠ l.id ∧
      (∀ c ∈ experiencedTracks tracks, c.id ≠ l.id →
        intAbs (m.rating.elo - l.rating.elo) ≤ intAbs (c.rating.elo - l.rating.elo)) ∧
      ((∃ c ∈ experiencedTracks tracks, c.id ≠ l.id ∧
          intAbs (c.rating.elo - l.rating.elo) ≤ 100) →
        intAbs (m.rating.elo - l.rating.elo) ≤ 100) := by
  have hlen2 : ¬((experiencedTracks tracks).length < 2) := not_lt.mpr hexp
  have hlpos : 0 < (experiencedTracks tracks).length := by omega
  have hidx : b1 % (experiencedTracks tracks).length < (experiencedTracks tracks).length :=
    Nat.mod_lt _ hlpos
  have hlmem : (experiencedTracks tracks).getD (b1 % (experiencedTracks tracks).length)
      dummyTrack ∈ experiencedTracks tracks := by
    rw [List.getD_eq_getElem _ _ hidx]
    exact List.getElem_mem _
  have hEnodup : ((experiencedTracks tracks).map TrackWithRating.id).Nodup :=
    hnodup.sublist ((List.filter_sublist _).map _)
  have habsE : ∀ c ∈ experiencedTracks tracks, intAbs c.rating.elo ≤ 2 ^ 61 :=
    fun c hc => habs c (List.mem_of_mem_filter hc)
  obtain ⟨m, hfbo, hmmem, hmid, hmin, h100⟩ :=
    c7_core (experiencedTracks tracks) _ hEnodup hlmem hexp habsE
  refine ⟨_, m, ?_, hlmem, hmmem, hmid, hmin, h100⟩
  simp only [balancedMatch]
  rw [if_neg hlen2, hfbo]

/-- Witness for C7 on the all-experienced witnessPool. -/
theorem c7_witness :
    ∃ l m, balancedMatch witnessPool 0 0 0 = (some l, some m) ∧
      l ∈ experiencedTracks witnessPool ∧ m ∈ experiencedTracks witnessPool ∧
      m.id ≠ l.id ∧
      (∀ c ∈ experiencedTracks witnessPool, c.id ≠ l.id →
        intAbs (m.rating.elo - l.rating.elo) ≤ intAbs (c.rating.elo - l.rating.elo)) ∧
      ((∃ c ∈ experiencedTracks witnessPool, c.id ≠ l.id ∧
          intAbs (c.rating.elo - l.rating.elo) ≤ 100) →
        intAbs (m.rating.elo - l.rating.elo) ≤ 100) :=
  c7_theorem witnessPool 0 0 0 (by decide) (by decide) (by decide)

/-- Claim C3 failing input: a two-track pool (ids 2 and 1, in that
order, both underplayed) forces exploration mode; with both random
draws 0 the matchmaker returns the SAME track on both sides, because
explorationMatch excludes opponents by comparing the slice index to
the left track's id. -/
theorem c3_failing :
    GetNextMatch
        [{ id := 2, rating := { trackID := 2, elo := 1200, wins := 0, losses := 0, draws := 0 } },
         { id := 1, rating := { trackID := 1, elo := 1200, wins := 0, losses := 0, draws := 0 } }]
        false 0 0 0 0 0 0 0 =
      some ({ id := 2, rating := { trackID := 2, elo := 1200, wins := 0, losses := 0, draws := 0 } },
            { id := 2, rating := { trackID := 2, elo := 1200, wins := 0, losses := 0, draws := 0 } }) := by
  decide

end SongBattle
